import Mathlib

/-!
Verification of the axstream per-channel playback engine.

The definitions below are a shallow embedding of the relevant parts of the
repository's JavaScript sources. File/line references in doc comments point
into the repository: `part_000` is the unnamed main server file (the most
recent iteration of the engine) and `server.js` is the earlier iteration that
is still part of the repository.

Modelling conventions:
- The filesystem is an association list from file names to `FileInfo`
  (observed size, text content, readability flag). `fs.existsSync`,
  `fs.statSync(..).size`, `fs.readFileSync(.., 'utf8')` and
  `fs.accessSync(.., R_OK)` become total lookups on this structure.
- JavaScript regular-expression global matching (`String.match(re)`) is
  implemented character-by-character with the exact semantics of the two
  patterns the engine uses, including lazy `.*?` (which does not cross a
  newline) and greedy `\d+`.
- Timers are modelled by indexing observations: the readiness detector's
  500 ms interval becomes ticks `1..39` and its 20-second deadline becomes the
  final tick `40`.
- Machine integers do not overflow in any quantity modelled here (sizes,
  millisecond durations), so `Nat` is used directly.
-/

namespace AxStream

/-- The two transcoder slots of a channel (strings `'A'`/`'B'` in the source,
`state.activeSlot` / `state.nextSlot`). -/
inductive Slot
  | A
  | B
deriving DecidableEq, Repr

/-- The slot's character as used in the per-slot file name templates. -/
def slotChar : Slot → Char
  | Slot.A => 'A'
  | Slot.B => 'B'

/-- Observable state of one file: `size` as reported by `fs.statSync`,
`content` as returned by `fs.readFileSync(.., 'utf8')`, and whether
`fs.accessSync(path, R_OK)` succeeds. -/
structure FileInfo where
  size : Nat
  content : String
  readable : Bool
deriving DecidableEq, Repr

/-- A directory snapshot: association list from file name to `FileInfo`.
Lookup takes the first binding, so updates are modelled by consing. -/
def FS : Type := List (String × FileInfo)

/-- Lookup of a file by name (first binding wins). -/
def FS.lookup : FS → String → Option FileInfo
  | [], _ => none
  | e :: rest, n => if e.1 = n then some e.2 else FS.lookup rest n

/-- Embeds `fs.existsSync(name)`. -/
def FS.existsSync (fs : FS) (n : String) : Bool :=
  (FS.lookup fs n).isSome

/-- Embeds `fs.statSync(name).size` (0 when the file is absent; the source only
calls `statSync` under an `existsSync` guard). -/
def FS.size (fs : FS) (n : String) : Nat :=
  match FS.lookup fs n with
  | some f => f.size
  | none => 0

/-- Embeds `fs.readFileSync(name, 'utf8')` (empty when absent; the source only reads
files it has just seen exist). -/
def FS.content (fs : FS) (n : String) : String :=
  match FS.lookup fs n with
  | some f => f.content
  | none => ""

/-- Whether `fs.accessSync(name, R_OK)` succeeds. -/
def FS.readableSync (fs : FS) (n : String) : Bool :=
  match FS.lookup fs n with
  | some f => f.readable
  | none => false

/-- Embeds `fs.unlinkSync(name)`: remove every binding of `name`. -/
def FS.erase : FS → String → FS
  | [], _ => []
  | e :: rest, n => if e.1 = n then FS.erase rest n else e :: FS.erase rest n

/-- Write a file (new binding shadows any older one). -/
def FS.setFile (fs : FS) (n : String) (i : FileInfo) : FS :=
  (n, i) :: fs

/-- Embeds `fs.copyFileSync(src, dst)`: the destination becomes a byte-for-byte copy
of the source. (The source code only copies files it has verified to exist,
so the absent-source case never fires on the paths proved below.) -/
def FS.copyFile (fs : FS) (src dst : String) : FS :=
  match FS.lookup fs src with
  | some info => FS.setFile fs dst info
  | none => fs

/-- File name `master_<slot>.m3u8` (template at part_000 line 138/156). -/
def masterSlotName : Slot → String
  | Slot.A => "master_A.m3u8"
  | Slot.B => "master_B.m3u8"

/-- File name `stream_<slot>.m3u8` (template at part_000 line 140/157). -/
def streamSlotName : Slot → String
  | Slot.A => "stream_A.m3u8"
  | Slot.B => "stream_B.m3u8"

/-- The public master playlist name (part_000 line 249). -/
def masterLinkName : String := "master.m3u8"

/-- The public stream playlist name (part_000 line 250). -/
def streamLinkName : String := "stream.m3u8"

/-! ### JavaScript regex matching

Two patterns occur in the engine:
`/segment_.*?\.ts/g` (readiness detector, part_000 line 170, and the manual
checks at lines 495 and 1109) and ``new RegExp(`segment_${toSlot}_\\d+\\.ts`, 'g')``
(the publisher, part_000 line 284). Both are reimplemented below with
JavaScript semantics: global non-overlapping leftmost matching, advancing one
character after a failed start, lazy `.*?` that cannot cross a newline
(JavaScript `.` excludes line terminators), and greedy `\d+`. -/

/-- Lazy scan for the pattern `.*?\.ts` starting at the current position:
returns the (shortest) run of non-newline characters before a literal `.ts`
together with the remaining input, or `none` if no `.ts` occurs before a
newline or the end of input. -/
def scanToTs : List Char → Option (List Char × List Char)
  | '.' :: 't' :: 's' :: rest => some ([], rest)
  | '\n' :: _ => none
  | c :: rest =>
    match scanToTs rest with
    | some pr => some (c :: pr.1, pr.2)
    | none => none
  | [] => none

/-- Try to match `/segment_.*?\.ts/` anchored at the head of the input;
returns the matched characters and the rest of the input after the match. -/
def trySegMatchAt (l : List Char) : Option (List Char × List Char) :=
  match l with
  | 's' :: 'e' :: 'g' :: 'm' :: 'e' :: 'n' :: 't' :: '_' :: rest =>
    match scanToTs rest with
    | some pr =>
      some (['s', 'e', 'g', 'm', 'e', 'n', 't', '_'] ++ pr.1 ++ ['.', 't', 's'], pr.2)
    | none => none
  | _ => none

/-- Global matching of `/segment_.*?\.ts/g`: at each position try to match;
on success continue after the match, on failure advance one character. The
fuel argument (instantiated with the input length) bounds the recursion; each
step consumes at least one character, so the bound is never hit early. -/
def matchSegAux : Nat → List Char → List (List Char)
  | 0, _ => []
  | _ + 1, [] => []
  | fuel + 1, c :: rest =>
    match trySegMatchAt (c :: rest) with
    | some pr => pr.1 :: matchSegAux fuel pr.2
    | none => matchSegAux fuel rest

/-- Embeds `streamContent.match(/segment_.*?\.ts/g)` as a list of matched strings
(the empty list standing for JavaScript's `null`). -/
def matchSegments (content : String) : List String :=
  (matchSegAux content.data.length content.data).map (fun cs => String.mk cs)

/-- Split a maximal leading run of decimal digits (`\d+` is greedy; giving
digits back can never help because the following literal is `.`). -/
def takeDigits : List Char → List Char × List Char
  | [] => ([], [])
  | c :: rest =>
    if c.isDigit then
      let p := takeDigits rest
      (c :: p.1, p.2)
    else ([], c :: rest)

/-- Try to match ``segment_<sc>_\d+\.ts`` anchored at the head of the input. -/
def trySlotMatchAt (sc : Char) (l : List Char) : Option (List Char × List Char) :=
  match l with
  | 's' :: 'e' :: 'g' :: 'm' :: 'e' :: 'n' :: 't' :: '_' :: c :: '_' :: rest =>
    if c = sc then
      match takeDigits rest with
      | (d :: ds, '.' :: 't' :: 's' :: rest2) =>
        some (['s', 'e', 'g', 'm', 'e', 'n', 't', '_', c, '_'] ++ (d :: ds) ++ ['.', 't', 's'], rest2)
      | _ => none
    else none
  | _ => none

/-- Global matching of ``segment_<sc>_\d+\.ts`` (same driving loop as
`matchSegAux`). -/
def matchSlotAux (sc : Char) : Nat → List Char → List (List Char)
  | 0, _ => []
  | _ + 1, [] => []
  | fuel + 1, c :: rest =>
    match trySlotMatchAt sc (c :: rest) with
    | some pr => pr.1 :: matchSlotAux sc fuel pr.2
    | none => matchSlotAux sc fuel rest

/-- Embeds ``streamContent.match(new RegExp(`segment_${toSlot}_\\d+\\.ts`, 'g'))``
as a list of matched strings. -/
def matchSlotSegments (slot : Slot) (content : String) : List String :=
  (matchSlotAux (slotChar slot) content.data.length content.data).map (fun cs => String.mk cs)

/-- Does the input start with the literal `.ts`. -/
def startsWithTs : List Char → Bool
  | '.' :: 't' :: 's' :: _ => true
  | _ => false

/-- Embeds `streamContent.includes('.ts')` (part_000 line 274). -/
def containsTs : List Char → Bool
  | [] => false
  | c :: rest => startsWithTs (c :: rest) || containsTs rest

/-! ### Readiness detector (part_000, `startFFmpeg`, lines 148-214) -/

/-- The constant `REQUIRED_SEGMENTS` (part_000 line 151). -/
def REQUIRED_SEGMENTS : Nat := 2

/-- Embeds `checkSegmentsReady` (part_000 lines 154-191): the per-observation
playability check of a slot. Mirrors the source's early returns: both
playlists must exist, both must be non-empty, the stream playlist must match
`/segment_.*?\.ts/g` at least `REQUIRED_SEGMENTS` times, and each of the
first `REQUIRED_SEGMENTS` matches must exist on disk with size strictly
greater than 5000 bytes. (The `try/catch` wrapper has nothing to catch in
this total model.) -/
def checkSegmentsReady (fs : FS) (slot : Slot) : Bool :=
  if FS.existsSync fs (masterSlotName slot) && FS.existsSync fs (streamSlotName slot) then
    if FS.size fs (masterSlotName slot) = 0 ∨ FS.size fs (streamSlotName slot) = 0 then false
    else
      let segs := matchSegments (FS.content fs (streamSlotName slot))
      if segs.length < REQUIRED_SEGMENTS then false
      else
        decide (REQUIRED_SEGMENTS ≤
          (segs.take REQUIRED_SEGMENTS).countP
            (fun n => FS.existsSync fs n && decide (5000 < FS.size fs n)))
  else false

/-- Poll interval of the detector in milliseconds (part_000 line 202). -/
def POLL_INTERVAL_MS : Nat := 500

/-- Readiness deadline in milliseconds (part_000 line 214). -/
def READY_TIMEOUT_MS : Nat := 20000

/-- Number of interval ticks that fire strictly before the 20-second
deadline: ticks at 500 ms, 1000 ms, ..., 19500 ms. -/
def detectorPolls : Nat := 39

/-- Scan ticks `k, k+1, ..., k+n-1` and return the first tick whose
observation passes `checkSegmentsReady`. -/
def firstReadyAux (obs : Nat → FS) (slot : Slot) : Nat → Nat → Option Nat
  | _, 0 => none
  | k, n + 1 =>
    if checkSegmentsReady (obs k) slot then some k else firstReadyAux obs slot (k + 1) n

/-- The detector's overall outcome on a trajectory of filesystem
observations (`obs k` is the snapshot at `k * 500` ms): the interval
(part_000 lines 194-202) reports ready at the first passing tick in
`1..detectorPolls`; otherwise the deadline handler (lines 205-214) performs
one final check at tick `detectorPolls + 1` and reports ready only if it
passes. `some k` means `onReady` fires at tick `k`; `none` means timeout. -/
def detectorResult (obs : Nat → FS) (slot : Slot) : Option Nat :=
  match firstReadyAux obs slot 1 detectorPolls with
  | some k => some k
  | none =>
    if checkSegmentsReady (obs (detectorPolls + 1)) slot then some (detectorPolls + 1)
    else none

/-- The playability conditions exactly as claim C1 words them, with the
pattern ``segment_<slot>_\d+\.ts`` (the slot-specific, digits-required
pattern). This follows the claim's words, not the source; the source's
detector uses `/segment_.*?\.ts/g` instead. -/
def claimedPlayable (fs : FS) (slot : Slot) : Bool :=
  FS.existsSync fs (masterSlotName slot) && FS.existsSync fs (streamSlotName slot) &&
  decide (0 < FS.size fs (masterSlotName slot)) && decide (0 < FS.size fs (streamSlotName slot)) &&
  (let segs := matchSlotSegments slot (FS.content fs (streamSlotName slot))
   decide (2 ≤ segs.length) &&
   (segs.take 2).all (fun n => FS.existsSync fs n && decide (5000 < FS.size fs n)))

/-- The playability conditions of the source's detector, stated
declaratively: this is claim C1's list of conditions with the source's
actual pattern `/segment_.*?\.ts/g` in place of ``segment_<slot>_\d+\.ts``. -/
def playableConditions (fs : FS) (slot : Slot) : Prop :=
  FS.existsSync fs (masterSlotName slot) = true ∧
  FS.existsSync fs (streamSlotName slot) = true ∧
  0 < FS.size fs (masterSlotName slot) ∧
  0 < FS.size fs (streamSlotName slot) ∧
  REQUIRED_SEGMENTS ≤ (matchSegments (FS.content fs (streamSlotName slot))).length ∧
  ∀ n ∈ (matchSegments (FS.content fs (streamSlotName slot))).take REQUIRED_SEGMENTS,
    FS.existsSync fs n = true ∧ 5000 < FS.size fs n

/-- Concrete slot-A directory for claim C1: the stream playlist lists two
segment names that match `/segment_.*?\.ts/g` but not ``segment_A_\d+\.ts``
(no digit run after the slot letter), and both segment files are on disk
with more than 5000 bytes. -/
def c1fs : FS :=
  [ ("master_A.m3u8", ⟨120, "#EXTM3U", true⟩),
    ("stream_A.m3u8", ⟨80, "segment_x.ts\nsegment_y.ts", true⟩),
    ("segment_x.ts", ⟨6000, "", true⟩),
    ("segment_y.ts", ⟨6000, "", true⟩) ]

/-- Concrete ready slot-A directory used by claim C1's witness. -/
def c1ReadyFs : FS :=
  [ ("master_A.m3u8", ⟨120, "#EXTM3U", true⟩),
    ("stream_A.m3u8", ⟨90, "segment_A_000.ts\nsegment_A_001.ts", true⟩),
    ("segment_A_000.ts", ⟨9000, "", true⟩),
    ("segment_A_001.ts", ⟨9000, "", true⟩) ]

/-! ### Active-slot publisher (part_000, `switchActiveStream`, lines 248-325) -/

/-- Result of `switchActiveStream`: the returned boolean together with the
directory after the call. -/
structure SwitchResult where
  success : Bool
  fs : FS

/-- The unlink-then-copy publication step (part_000 lines 304-317): remove
any pre-existing `master.m3u8` / `stream.m3u8`, then byte-copy the slot's
master and stream playlists onto the public names. -/
def publishCopy (fs : FS) (toSlot : Slot) : FS :=
  let fs1 := FS.erase (FS.erase fs masterLinkName) streamLinkName
  let fs2 := FS.copyFile fs1 (masterSlotName toSlot) masterLinkName
  FS.copyFile fs2 (streamSlotName toSlot) streamLinkName

/-- Embeds `switchActiveStream` (part_000 lines 248-325). The verification chain
mirrors the source's early returns: target pair exists, target pair
non-empty, playlist text contains `.ts`, at least 2 matches of
``segment_<toSlot>_\d+\.ts``, and at least 2 of the first 3 matched segment
files on disk with size strictly greater than 5000 bytes; only then are the
public names unlinked and rewritten by copy. -/
def switchActiveStream (fs : FS) (toSlot : Slot) : SwitchResult :=
  if ¬ (FS.existsSync fs (masterSlotName toSlot) = true ∧
        FS.existsSync fs (streamSlotName toSlot) = true) then ⟨false, fs⟩
  else if FS.size fs (masterSlotName toSlot) = 0 ∨ FS.size fs (streamSlotName toSlot) = 0 then
    ⟨false, fs⟩
  else if containsTs (FS.content fs (streamSlotName toSlot)).data = false then ⟨false, fs⟩
  else
    let segs := matchSlotSegments toSlot (FS.content fs (streamSlotName toSlot))
    if segs.length < 2 then ⟨false, fs⟩
    else if (segs.take 3).countP (fun n => FS.existsSync fs n && decide (5000 < FS.size fs n)) < 2 then
      ⟨false, fs⟩
    else ⟨true, publishCopy fs toSlot⟩

/-- The verification conditions exactly as claim C2 words them, including its
`≥ 5000 bytes` threshold. This follows the claim's words, not the source;
the source requires sizes strictly greater than 5000. -/
def claimedSwitchReady (fs : FS) (toSlot : Slot) : Bool :=
  FS.existsSync fs (masterSlotName toSlot) && FS.existsSync fs (streamSlotName toSlot) &&
  decide (0 < FS.size fs (masterSlotName toSlot)) &&
  decide (0 < FS.size fs (streamSlotName toSlot)) &&
  (let segs := matchSlotSegments toSlot (FS.content fs (streamSlotName toSlot))
   decide (2 ≤ segs.length) &&
   decide (2 ≤ (segs.take 3).countP (fun n => FS.existsSync fs n && decide (5000 ≤ FS.size fs n))))

/-- The publisher's verification conditions as the source actually checks
them (claim C2's conditions with strict `> 5000`); the redundant
`includes('.ts')` check is omitted because at least two pattern matches force
a `.ts` occurrence (proved below). -/
def codeSwitchReady (fs : FS) (toSlot : Slot) : Prop :=
  FS.existsSync fs (masterSlotName toSlot) = true ∧
  FS.existsSync fs (streamSlotName toSlot) = true ∧
  0 < FS.size fs (masterSlotName toSlot) ∧
  0 < FS.size fs (streamSlotName toSlot) ∧
  2 ≤ (matchSlotSegments toSlot (FS.content fs (streamSlotName toSlot))).length ∧
  2 ≤ ((matchSlotSegments toSlot (FS.content fs (streamSlotName toSlot))).take 3).countP
        (fun n => FS.existsSync fs n && decide (5000 < FS.size fs n))

/-- Concrete slot-A directory for claim C2: two listed slot segments, both
exactly 5000 bytes on disk. The source's publisher rejects it (it requires
strictly more than 5000); the claim's `≥ 5000` conditions accept it. -/
def c2fs : FS :=
  [ ("master_A.m3u8", ⟨120, "#EXTM3U", true⟩),
    ("stream_A.m3u8", ⟨90, "segment_A_0.ts\nsegment_A_1.ts", true⟩),
    ("segment_A_0.ts", ⟨5000, "", true⟩),
    ("segment_A_1.ts", ⟨5000, "", true⟩) ]

/-- Concrete publishable slot-A directory used by claim C2's witness. -/
def c2ReadyFs : FS :=
  [ ("master_A.m3u8", ⟨120, "#EXTM3U", true⟩),
    ("stream_A.m3u8", ⟨90, "segment_A_0.ts\nsegment_A_1.ts", true⟩),
    ("segment_A_0.ts", ⟨5001, "", true⟩),
    ("segment_A_1.ts", ⟨5001, "", true⟩),
    ("master.m3u8", ⟨7, "stale", true⟩) ]

/-! ### Duration probe (`getVideoDuration`, part_000 lines 49-66) and the
schedule projector (`generateDynamicSchedule`, part_000 lines 68-101) -/

/-- Per-file probe timeout in milliseconds (part_000 line 54). -/
def PROBE_TIMEOUT_MS : Nat := 10000

/-- The 90-minute fallback duration in milliseconds (part_000 lines 53, 60, 62). -/
def FALLBACK_DURATION_MS : Nat := 90 * 60 * 1000

/-- Which of the three ways the probe race can end: the 10-second timer wins,
`ffprobe` reports an error, or `ffprobe` succeeds and
`metadata.format.duration` is absent (`none`) or a number of seconds. -/
inductive ProbeOutcome
  | timeout
  | error
  | ok (duration : Option Nat)
deriving DecidableEq, Repr

/-- The value `getVideoDuration` resolves with (part_000 lines 49-66): the
fallback on timeout or error; on success, `metadata.format.duration || 90*60`
seconds (so a missing or zero duration also falls back) times 1000. -/
def getVideoDuration : ProbeOutcome → Nat
  | ProbeOutcome.timeout => FALLBACK_DURATION_MS
  | ProbeOutcome.error => FALLBACK_DURATION_MS
  | ProbeOutcome.ok none => (90 * 60) * 1000
  | ProbeOutcome.ok (some d) => if d = 0 then (90 * 60) * 1000 else d * 1000

/-- A promise outcome: resolved with a value, or rejected. -/
inductive PromiseOutcome (α : Type)
  | resolved (a : α)
  | rejected
deriving DecidableEq, Repr

/-- The promise returned by `getVideoDuration`: every path of the executor
(timeout handler, error branch, success branch) calls `resolve`, never
`reject`, so the promise always resolves with `getVideoDuration`'s value. -/
def getVideoDurationPromise (o : ProbeOutcome) : PromiseOutcome Nat :=
  PromiseOutcome.resolved (getVideoDuration o)

/-- A queued movie as the schedule projector sees it: its title and the
outcome of probing its file. -/
structure QMovie where
  title : String
  probe : ProbeOutcome
deriving DecidableEq, Repr

/-- The currently-playing snapshot handed to the projector (times in
milliseconds since the epoch; the source renders them to WAT `HH:MM` strings
for display, which is outside this model). -/
structure CurrentInfo where
  title : String
  startTime : Nat
  endTime : Nat
deriving DecidableEq, Repr

/-- One schedule row (part_000 lines 73-78 and 90-95). -/
structure ScheduleRow where
  title : String
  startTime : Nat
  endTime : Nat
  current : Bool
deriving DecidableEq, Repr

/-- The loop of `generateDynamicSchedule` (part_000 lines 84-98): each entry
starts at the running time, ends at start plus its probed duration, and the
running time then advances to end plus 1000 ms. -/
def scheduleUpcoming (start : Nat) : List QMovie → List ScheduleRow
  | [] => []
  | m :: rest =>
    let d := getVideoDuration m.probe
    ⟨m.title, start, start + d, false⟩ :: scheduleUpcoming (start + d + 1000) rest

/-- Embeds `generateDynamicSchedule` (part_000 lines 68-101): the current row (if a
snapshot is given) followed by rows for the first `min(queue.length, 10)`
queued movies, chained from the snapshot's end time plus 1000 ms (or from
`now` with no snapshot). -/
def generateDynamicSchedule (now : Nat) (cur : Option CurrentInfo) (queue : List QMovie) :
    List ScheduleRow :=
  match cur with
  | some info =>
    ⟨info.title, info.startTime, info.endTime, true⟩
      :: scheduleUpcoming (info.endTime + 1000) (queue.take 10)
  | none => scheduleUpcoming now (queue.take 10)

/-- Adjacency check of claim C9: every entry after the first starts exactly
1000 ms after its predecessor ends. -/
def adjacentOk : List ScheduleRow → Bool
  | a :: b :: rest => decide (b.startTime = a.endTime + 1000) && adjacentOk (b :: rest)
  | _ => true

/-! ### Preload, play-next and ad models (part_000 lines 332-404, 407-522,
526-645) -/

/-- A queued movie entry as the engine handlers see it; `title` and
`filePath` are `Option`s because the source guards against absent fields
(`!movie.title || !movie.filePath`). -/
structure Movie where
  title : Option String
  filePath : Option String
deriving DecidableEq, Repr

/-- Overall preload deadline in milliseconds (part_000 line 520). -/
def PRELOAD_TIMEOUT_MS : Nat := 25000

/-- How the synchronous head of `preloadNextMovie` (part_000 lines 407-455)
exits: each refusal returns without spawning; `spawn input` reaches the
`startFFmpeg` call with the head movie's file path. -/
inductive PreloadDecision
  | refuseEmptyQueue
  | refuseIsPreloading
  | alreadyReady
  | refuseInvalidMovie
  | refuseMissingFile
  | spawn (input : String)
deriving DecidableEq, Repr

/-- Does the decision reach the `startFFmpeg` spawn. -/
def PreloadDecision.isSpawn : PreloadDecision → Bool
  | PreloadDecision.spawn _ => true
  | _ => false

/-- The guard sequence of `preloadNextMovie` in source order (part_000 lines
412-437): empty queue, `isPreloading`, `preloadReady`, invalid head
(missing `filePath`), missing file on disk; otherwise spawn on the head's
path. -/
def preloadDecision (q : List Movie) (isPreloading preloadReady : Bool) (fs : FS) :
    PreloadDecision :=
  match q with
  | [] => PreloadDecision.refuseEmptyQueue
  | m :: _ =>
    if isPreloading then PreloadDecision.refuseIsPreloading
    else if preloadReady then PreloadDecision.alreadyReady
    else
      match m.filePath with
      | none => PreloadDecision.refuseInvalidMovie
      | some p =>
        if FS.existsSync fs p then PreloadDecision.spawn p
        else PreloadDecision.refuseMissingFile

/-- The boolean `preloadNextMovie` resolves with: `true` when the movie was
already preloaded (line 424) or when a spawn happened and readiness was
observed (`spawnBecomesReady`, lines 470-474 / 505-509); `false` on every
refusal and on a spawn whose readiness never confirmed (lines 414, 419, 431,
436, 481, 518). -/
def preloadReturns (d : PreloadDecision) (spawnBecomesReady : Bool) : Bool :=
  match d with
  | PreloadDecision.alreadyReady => true
  | PreloadDecision.spawn _ => spawnBecomesReady
  | _ => false

/-- The `isAd` argument of the preload's `startFFmpeg` call (part_000 line 475):
movies are spawned without the infinite input-loop. -/
def preloadSpawnIsAd : Bool := false

/-- Slot argument of the preload's `startFFmpeg` call (part_000 line 460):
the preload always targets `state.nextSlot`. -/
def preloadSpawnSlot (_active nextSlot : Slot) : Slot := nextSlot

/-- The manual filesystem verification run when the 25-second preload
deadline fires with `preloadReady` still false (part_000 lines 488-515):
both slot playlists exist, the stream playlist matches `/segment_.*?\.ts/g`
at least twice, and each of the first two matches exists on disk with size
strictly greater than 5000 bytes. -/
def manualPreloadCheck (fs : FS) (slot : Slot) : Bool :=
  if FS.existsSync fs (masterSlotName slot) && FS.existsSync fs (streamSlotName slot) then
    let segs := matchSegments (FS.content fs (streamSlotName slot))
    if 2 ≤ segs.length then
      decide (2 ≤ (segs.take 2).countP (fun n => FS.existsSync fs n && decide (5000 < FS.size fs n)))
    else false
  else false

/-- What the preload promise resolves with at the 25-second deadline
(part_000 lines 486-520): nothing new if readiness already fired, otherwise
the manual verification's verdict. -/
def preloadDeadlineResult (preloadReadyAtDeadline : Bool) (fs : FS) (slot : Slot) : Bool :=
  if preloadReadyAtDeadline then true else manualPreloadCheck fs slot

/-- The manual deadline verification, stated declaratively. -/
def manualCheckConditions (fs : FS) (slot : Slot) : Prop :=
  FS.existsSync fs (masterSlotName slot) = true ∧
  FS.existsSync fs (streamSlotName slot) = true ∧
  2 ≤ (matchSegments (FS.content fs (streamSlotName slot))).length ∧
  ∀ n ∈ (matchSegments (FS.content fs (streamSlotName slot))).take 2,
    FS.existsSync fs n = true ∧ 5000 < FS.size fs n

/-- The four runtime flags of a channel (part_000 lines 662-665). -/
structure RuntimeFlags where
  isPlaying : Bool
  playingAd : Bool
  preloadReady : Bool
  isPreloading : Bool
deriving DecidableEq, Repr

/-- How `playNextMovie` (part_000 lines 526-583) leaves its decision phase. -/
inductive PlayNextAction
  | toAdLoop
  | dropInvalidRetry1s
  | waitInflight
  | retryIn5s
  | transition
deriving DecidableEq, Repr

/-- The decision phase of `playNextMovie` (part_000 lines 526-583), returning
the queue afterwards, whether `channels.json` was rewritten, and how the call
proceeds. Empty queue returns to the ad loop (532-545); a head with missing
`title`/`filePath` is shifted off, persisted and retried in 1 s (550-557);
with `preloadReady` the transition body runs (586-644); otherwise an in-flight
preload is awaited (566-574, abstracted as `waitInflight` on the
still-not-ready path), or `preloadNextMovie` is forced (576-582) and, when it
fails, the call retries in 5 s with the queue untouched. -/
def playNextStep (q : List Movie) (st : RuntimeFlags) (hasNextProcess : Bool) (fs : FS)
    (spawnBecomesReady : Bool) : List Movie × Bool × PlayNextAction :=
  match q with
  | [] => ([], false, PlayNextAction.toAdLoop)
  | m :: rest =>
    if m.title.isNone ∨ m.filePath.isNone then (rest, true, PlayNextAction.dropInvalidRetry1s)
    else if st.preloadReady then (q, false, PlayNextAction.transition)
    else if hasNextProcess then (q, false, PlayNextAction.waitInflight)
    else
      let d := preloadDecision q st.isPreloading st.preloadReady fs
      if preloadReturns d spawnBecomesReady then (q, false, PlayNextAction.transition)
      else (q, false, PlayNextAction.retryIn5s)

/-- The ad media path (part_000 line 18). -/
def adVideoPath : String := "ad/ad.mp4"

/-- How a `playAd` call (part_000 lines 332-360) leaves its guard phase. -/
inductive AdAction
  | skipQueueNonempty
  | skipAlreadyPlaying
  | retryIn (ms : Nat)
  | spawnAd
deriving DecidableEq, Repr

/-- The guard phase of `playAd` (part_000 lines 337-349): skip when the queue
has movies (337-340), skip when `isPlaying || playingAd` (342), retry in 5 s
when the ad file is missing (345-349), otherwise spawn the ad. -/
def playAdStep (queueLen : Nat) (st : RuntimeFlags) (fs : FS) : AdAction :=
  if 0 < queueLen then AdAction.skipQueueNonempty
  else if st.isPlaying || st.playingAd then AdAction.skipAlreadyPlaying
  else if FS.existsSync fs adVideoPath = false then AdAction.retryIn 5000
  else AdAction.spawnAd

/-- The flags `playAd` sets when it proceeds to spawn (part_000 lines
352-353). -/
def adLoopFlags : RuntimeFlags :=
  { isPlaying := true, playingAd := true, preloadReady := false, isPreloading := false }

/-- The flag effect of the ad transcoder's `onExit` handler (part_000 lines
366-384): `isPlaying` is cleared unconditionally (367); `playingAd` is
cleared only when the queue has movies (372-377) — with an empty queue it is
left as it was while a `playAd` restart is merely scheduled. -/
def adOnExit (queueLen : Nat) (st : RuntimeFlags) : RuntimeFlags :=
  let st1 := { st with isPlaying := false }
  if 0 < queueLen then { st1 with playingAd := false } else st1

/-- The restart delay scheduled by the ad's `onExit` handler when the queue
is still empty (part_000 lines 379-384): 1 s after a normal exit, 5 s after
exit code −1 (spawn failure / missing input). -/
def adOnExitRetryMs (exitCode : Int) : Nat :=
  if exitCode = -1 then 5000 else 1000

/-- Outcome of `startFFmpeg`'s input verification (part_000 lines 104-118):
a missing or unreadable input aborts the spawn, calling `onExit(-1)` and
returning `null`. -/
inductive SpawnOutcome
  | abortedExitNeg1
  | launched
deriving DecidableEq, Repr

/-- Embeds the input verification of `startFFmpeg` (part_000 lines 104-118). -/
def startFFmpegSpawn (fs : FS) (input : String) : SpawnOutcome :=
  if FS.existsSync fs input && FS.readableSync fs input then SpawnOutcome.launched
  else SpawnOutcome.abortedExitNeg1

/-- Movie with both fields present whose file is nowhere on disk, for
claim C6. -/
def c6missingMovie : Movie := ⟨some "Gone", some "movies/gone.mp4"⟩

/-- All-false flag state (the state right after `initializeChannel`). -/
def idleFlags : RuntimeFlags :=
  { isPlaying := false, playingAd := false, preloadReady := false, isPreloading := false }

/-- Movie with both fields present whose file is nowhere on disk, for
claim C5's counterexample (a distinct copy so the two claims share no
counterexample input). -/
def c5missingMovie : Movie := ⟨some "Lost", some "movies/lost.mp4"⟩

/-- One-file filesystem containing a readable movie file, for witnesses. -/
def c5onDiskFs : FS := [ ("movies/ready.mp4", ⟨777, "", true⟩) ]

/-! ### Transition effect order (`playNextMovie`: part_000 lines 586-644
versus server.js lines 384-448) -/

/-- The externally relevant effects of a successful `playNextMovie`
transition body, in program order. -/
inductive TStep
  | slotSwap
  | killOldAd
  | procHandoff
  | flagsReset
  | publishAttempts
  | metadataUpdate
  | scheduleRegen
  | queueShift
  | queuePersist
deriving DecidableEq, Repr

/-- Effect order of part_000's `playNextMovie` transition body (lines
586-644): swap slots (589-591), kill the ad (594-596), move the preload
process to current (599-600), reset flags (601-603), publish with up to 3
retries (606-616), update current-movie metadata (619-625), regenerate the
schedule (627-631), shift the queue head (634), persist `channels.json`
(635). -/
def part000PlayNextSteps : List TStep :=
  [TStep.slotSwap, TStep.killOldAd, TStep.procHandoff, TStep.flagsReset,
   TStep.publishAttempts, TStep.metadataUpdate, TStep.scheduleRegen,
   TStep.queueShift, TStep.queuePersist]

/-- Effect order of server.js's `playNextMovie` transition body (lines
384-448): shift the queue head (395), swap slots (399-401), kill the ad
(404-406), move the preload process (409-410), reset flags (411-413),
publish (416-422), update metadata (425-431), regenerate the schedule
(434-438), persist `channels.json` (440). -/
def serverJsPlayNextSteps : List TStep :=
  [TStep.queueShift, TStep.slotSwap, TStep.killOldAd, TStep.procHandoff,
   TStep.flagsReset, TStep.publishAttempts, TStep.metadataUpdate,
   TStep.scheduleRegen, TStep.queuePersist]

/-- Index of the first occurrence of a step in a step list (length when
absent). -/
def idxOfStep (t : TStep) : List TStep → Nat
  | [] => 0
  | s :: rest => if s = t then 0 else idxOfStep t rest + 1

/-- The in-memory and persisted queues (movie titles) plus the slot pair, as
acted on by a transition's effects. -/
structure EngineQueueState where
  mem : List String
  disk : List String
  slots : Slot × Slot
deriving DecidableEq, Repr

/-- Semantics of one transition effect on `EngineQueueState`: the shift drops
the in-memory head, the persist rewrites the disk snapshot from memory, the
swap exchanges the slots; the remaining effects do not touch these fields. -/
def TStep.applyStep : TStep → EngineQueueState → EngineQueueState
  | TStep.queueShift, st => { st with mem := st.mem.tail }
  | TStep.queuePersist, st => { st with disk := st.mem }
  | TStep.slotSwap, st => { st with slots := (st.slots.2, st.slots.1) }
  | _, st => st

/-- Run a list of transition effects in order. -/
def runSteps (l : List TStep) (st : EngineQueueState) : EngineQueueState :=
  l.foldl (fun s t => TStep.applyStep t s) st

/-- Claim C3's ordering property of a transition's effect list: the queue
shift comes after the slot swap, the publication attempts, the metadata
update and the schedule regeneration, and the persistence write follows the
shift. -/
def claimedShiftLast (l : List TStep) : Prop :=
  idxOfStep TStep.slotSwap l < idxOfStep TStep.queueShift l ∧
  idxOfStep TStep.publishAttempts l < idxOfStep TStep.queueShift l ∧
  idxOfStep TStep.metadataUpdate l < idxOfStep TStep.queueShift l ∧
  idxOfStep TStep.scheduleRegen l < idxOfStep TStep.queueShift l ∧
  idxOfStep TStep.queueShift l < idxOfStep TStep.queuePersist l

/-! ### Slot parity under the controller operations (claim C4) -/

/-- The controller operations of claim C4. -/
inductive ChanOp
  | initChannel
  | enqueueMovie
  | playAdOp
  | preloadNext
  | playNext
deriving DecidableEq, Repr

/-- Effect of each operation on the `(activeSlot, nextSlot)` pair:
`initializeChannel` resets to `(A, B)` (part_000 lines 660-661); a completed
`playNextMovie` swaps the pair (lines 588-591); `EnqueueMovie` (the `/play`
handler, lines 1018-1160), `playAd` (332-404) and `preloadNextMovie`
(407-522) never write either field. -/
def ChanOp.applySlots : ChanOp → Slot × Slot → Slot × Slot
  | ChanOp.initChannel, _ => (Slot.A, Slot.B)
  | ChanOp.playNext, p => (p.2, p.1)
  | _, p => p

/-- The slot pair after running a sequence of operations from the
just-initialized state (part_000 lines 657-666). -/
def runChanOps (ops : List ChanOp) : Slot × Slot :=
  ops.foldl (fun p op => ChanOp.applySlots op p) (Slot.A, Slot.B)

/-! ### Queue persistence (claim C8) -/

/-- The in-memory queue next to the queue that the last `writeFileSync` of
`channels.json` wrote (re-reading the catalog yields `disk`). -/
structure Catalog where
  mem : List Movie
  disk : List Movie
deriving DecidableEq, Repr

/-- The queue mutations of the engine, each paired in the source with an
immediate rewrite of `channels.json`: the `/play` handler's append (part_000
lines 1019-1036), the transition's head shift (634-635), and the
invalid-head drop (552-553). -/
inductive QueueOp
  | enqueue (m : Movie)
  | shiftPersist
  | dropInvalidPersist
deriving DecidableEq, Repr

/-- Effect of one queue mutation: every mutation writes the whole in-memory
catalog back to disk. -/
def applyQueueOp (c : Catalog) : QueueOp → Catalog
  | QueueOp.enqueue m => { mem := c.mem ++ [m], disk := c.mem ++ [m] }
  | QueueOp.shiftPersist => { mem := c.mem.tail, disk := c.mem.tail }
  | QueueOp.dropInvalidPersist => { mem := c.mem.tail, disk := c.mem.tail }

/-- Run a sequence of queue mutations. -/
def runQueueOps (c : Catalog) (ops : List QueueOp) : Catalog :=
  ops.foldl applyQueueOp c

/-- Claim C4's invariant on a slot pair: the pair is `(A, B)` or `(B, A)` —
equivalently, the two slots are distinct and together cover `{A, B}`. -/
def slotPairOk (p : Slot × Slot) : Prop :=
  (p.1 = Slot.A ∧ p.2 = Slot.B) ∨ (p.1 = Slot.B ∧ p.2 = Slot.A)

/-! ### Helper lemmas -/

theorem lookup_setFile_eq (fs : FS) (n : String) (i : FileInfo) :
    FS.lookup (FS.setFile fs n i) n = some i := by
  simp [FS.setFile, FS.lookup]

theorem lookup_setFile_ne (fs : FS) (n m : String) (i : FileInfo) (h : n ≠ m) :
    FS.lookup (FS.setFile fs n i) m = FS.lookup fs m := by
  simp [FS.setFile, FS.lookup, h]

theorem lookup_erase (fs : FS) (n m : String) :
    FS.lookup (FS.erase fs n) m = if m = n then none else FS.lookup fs m := by
  induction fs with
  | nil => simp [FS.erase, FS.lookup]
  | cons e rest ih =>
    by_cases he : e.1 = n
    · rw [show FS.erase (e :: rest) n = FS.erase rest n from by simp [FS.erase, he]]
      rw [ih]
      by_cases hm : m = n
      · simp [hm]
      · have hne : e.1 ≠ m := by
          intro hc
          exact hm (by rw [← hc, he])
        simp [FS.lookup, hm, hne]
    · rw [show FS.erase (e :: rest) n = e :: FS.erase rest n from by simp [FS.erase, he]]
      by_cases hem : e.1 = m
      · have hmn : m ≠ n := by
          intro hc
          exact he (by rw [hem, hc])
        simp [FS.lookup, hem, hmn]
      · simp [FS.lookup, hem, ih]

theorem containsTs_cons_of (c : Char) (l : List Char) (h : containsTs l = true) :
    containsTs (c :: l) = true := by
  show (startsWithTs (c :: l) || containsTs l) = true
  rw [h]
  exact Bool.or_true _

theorem containsTs_of_takeDigits (l : List Char) (h : containsTs (takeDigits l).2 = true) :
    containsTs l = true := by
  induction l with
  | nil => simpa [takeDigits] using h
  | cons c rest ih =>
    by_cases hd : c.isDigit
    · have he : takeDigits (c :: rest) = (c :: (takeDigits rest).1, (takeDigits rest).2) := by
        simp [takeDigits, hd]
      rw [he] at h
      exact containsTs_cons_of c rest (ih h)
    · have he : takeDigits (c :: rest) = ([], c :: rest) := by
        simp [takeDigits, hd]
      rw [he] at h
      exact h

theorem containsTs_of_trySlot (sc : Char) (l : List Char) (pr : List Char × List Char)
    (h : trySlotMatchAt sc l = some pr) : containsTs l = true := by
  unfold trySlotMatchAt at h
  split at h
  · rename_i rest
    split at h
    · split at h
      · rename_i heq
        cases h
        have h2 : containsTs (takeDigits rest).2 = true := by
          rw [heq]
          rfl
        have h3 : containsTs rest = true := containsTs_of_takeDigits rest h2
        repeat apply containsTs_cons_of
        exact h3
      · cases h
    · cases h
  · cases h

theorem containsTs_of_matchSlotAux (sc : Char) :
    ∀ (fuel : Nat) (l : List Char), matchSlotAux sc fuel l ≠ [] → containsTs l = true := by
  intro fuel
  induction fuel with
  | zero =>
    intro l h
    simp [matchSlotAux] at h
  | succ n ih =>
    intro l h
    cases l with
    | nil => simp [matchSlotAux] at h
    | cons c rest =>
      cases htry : trySlotMatchAt sc (c :: rest) with
      | some pr => exact containsTs_of_trySlot sc (c :: rest) pr htry
      | none =>
        have h2 : matchSlotAux sc n rest ≠ [] := by
          simpa [matchSlotAux, htry] using h
        exact containsTs_cons_of c rest (ih rest h2)

theorem containsTs_of_matchSlotSegments (slot : Slot) (content : String)
    (h : 2 ≤ (matchSlotSegments slot content).length) : containsTs content.data = true := by
  apply containsTs_of_matchSlotAux (slotChar slot) content.data.length
  intro hnil
  rw [matchSlotSegments, hnil] at h
  simp at h

theorem countP_ge_iff_all {α : Type} (p : α → Bool) (l : List α) (k : Nat) (hl : l.length = k) :
    k ≤ l.countP p ↔ ∀ x ∈ l, p x = true := by
  constructor
  · intro h
    have h1 : l.countP p ≤ l.length := List.countP_le_length p
    have h2 : l.countP p = l.length := le_antisymm h1 (by omega)
    exact List.countP_eq_length.mp h2
  · intro h
    rw [List.countP_eq_length.mpr h, hl]

theorem firstReadyAux_mem (obs : Nat → FS) (slot : Slot) :
    ∀ (n k j : Nat), firstReadyAux obs slot k n = some j →
      k ≤ j ∧ j < k + n ∧ checkSegmentsReady (obs j) slot = true ∧
      ∀ i, k ≤ i → i < j → checkSegmentsReady (obs i) slot = false := by
  intro n
  induction n with
  | zero =>
    intro k j h
    simp [firstReadyAux] at h
  | succ m ih =>
    intro k j h
    rw [firstReadyAux] at h
    by_cases hc : checkSegmentsReady (obs k) slot = true
    · rw [if_pos hc] at h
      cases h
      refine ⟨le_refl _, by omega, hc, ?_⟩
      intro i h1 h2
      omega
    · rw [if_neg hc] at h
      obtain ⟨h1, h2, h3, h4⟩ := ih (k + 1) j h
      refine ⟨by omega, by omega, h3, ?_⟩
      intro i hi1 hi2
      by_cases hik : i = k
      · rw [hik]
        exact Bool.not_eq_true _ ▸ (by simpa using hc)
      · exact h4 i (by omega) hi2

theorem firstReadyAux_none (obs : Nat → FS) (slot : Slot) :
    ∀ (n k : Nat), firstReadyAux obs slot k n = none →
      ∀ j, k ≤ j → j < k + n → checkSegmentsReady (obs j) slot = false := by
  intro n
  induction n with
  | zero =>
    intro k _ j h1 h2
    omega
  | succ m ih =>
    intro k h j h1 h2
    rw [firstReadyAux] at h
    by_cases hc : checkSegmentsReady (obs k) slot = true
    · rw [if_pos hc] at h
      cases h
    · rw [if_neg hc] at h
      by_cases hjk : j = k
      · rw [hjk]
        simpa using hc
      · exact ih (k + 1) h j (by omega) (by omega)

theorem firstReadyAux_of_check (obs : Nat → FS) (slot : Slot) :
    ∀ (n k j : Nat), k ≤ j → j < k + n → checkSegmentsReady (obs j) slot = true →
      (firstReadyAux obs slot k n).isSome = true := by
  intro n
  induction n with
  | zero =>
    intro k j h1 h2
    omega
  | succ m ih =>
    intro k j h1 h2 h3
    rw [firstReadyAux]
    by_cases hc : checkSegmentsReady (obs k) slot = true
    · rw [if_pos hc]
      rfl
    · rw [if_neg hc]
      have hjk : j ≠ k := by
        intro hc2
        exact hc (hc2 ▸ h3)
      exact ih (k + 1) j (by omega) (by omega) h3

theorem checkSegmentsReady_iff (fs : FS) (slot : Slot) :
    checkSegmentsReady fs slot = true ↔ playableConditions fs slot := by
  unfold checkSegmentsReady playableConditions
  by_cases h1 : FS.existsSync fs (masterSlotName slot) = true
  case neg =>
    rw [Bool.not_eq_true] at h1
    simp [h1]
  case pos =>
    by_cases h2 : FS.existsSync fs (streamSlotName slot) = true
    case neg =>
      rw [Bool.not_eq_true] at h2
      simp [h1, h2]
    case pos =>
      rw [h1, h2]
      simp only [Bool.and_self, if_true]
      by_cases h3 : FS.size fs (masterSlotName slot) = 0 ∨ FS.size fs (streamSlotName slot) = 0
      · rw [if_pos h3]
        simp only [Bool.false_eq_true, false_iff]
        intro hcon
        obtain ⟨_, _, hp3, hp4, _⟩ := hcon
        omega
      · rw [if_neg h3]
        by_cases h4 :
            (matchSegments (FS.content fs (streamSlotName slot))).length < REQUIRED_SEGMENTS
        · rw [if_pos h4]
          simp only [Bool.false_eq_true, false_iff]
          intro hcon
          obtain ⟨_, _, _, _, hp5, _⟩ := hcon
          omega
        · rw [if_neg h4]
          have hlen : ((matchSegments (FS.content fs (streamSlotName slot))).take
              REQUIRED_SEGMENTS).length = REQUIRED_SEGMENTS := by
            rw [List.length_take]
            omega
          rw [decide_eq_true_eq]
          rw [countP_ge_iff_all _ _ _ hlen]
          constructor
          · intro hall
            refine ⟨by trivial, by trivial, by omega, by omega, by omega, ?_⟩
            intro n hn
            have := hall n hn
            rw [Bool.and_eq_true, decide_eq_true_eq] at this
            exact this
          · intro hcon n hn
            obtain ⟨_, _, _, _, _, hp6⟩ := hcon
            obtain ⟨ha, hb⟩ := hp6 n hn
            rw [Bool.and_eq_true, decide_eq_true_eq]
            exact ⟨ha, hb⟩

theorem manualPreloadCheck_iff (fs : FS) (slot : Slot) :
    manualPreloadCheck fs slot = true ↔ manualCheckConditions fs slot := by
  unfold manualPreloadCheck manualCheckConditions
  by_cases h1 : FS.existsSync fs (masterSlotName slot) = true
  case neg =>
    rw [Bool.not_eq_true] at h1
    simp [h1]
  case pos =>
    by_cases h2 : FS.existsSync fs (streamSlotName slot) = true
    case neg =>
      rw [Bool.not_eq_true] at h2
      simp [h1, h2]
    case pos =>
      rw [h1, h2]
      simp only [Bool.and_self, if_true]
      by_cases h3 : 2 ≤ (matchSegments (FS.content fs (streamSlotName slot))).length
      · rw [if_pos h3]
        have hlen : ((matchSegments (FS.content fs (streamSlotName slot))).take 2).length = 2 := by
          rw [List.length_take]
          omega
        rw [decide_eq_true_eq, countP_ge_iff_all _ _ _ hlen]
        constructor
        · intro hall
          refine ⟨by trivial, by trivial, h3, ?_⟩
          intro n hn
          have := hall n hn
          rw [Bool.and_eq_true, decide_eq_true_eq] at this
          exact this
        · intro hcon n hn
          obtain ⟨_, _, _, hp⟩ := hcon
          obtain ⟨ha, hb⟩ := hp n hn
          rw [Bool.and_eq_true, decide_eq_true_eq]
          exact ⟨ha, hb⟩
      · rw [if_neg h3]
        simp only [Bool.false_eq_true, false_iff]
        intro hcon
        obtain ⟨_, _, hp3, _⟩ := hcon
        omega

theorem slotName_ne_links (slot : Slot) :
    masterSlotName slot ≠ masterLinkName ∧ masterSlotName slot ≠ streamLinkName ∧
    streamSlotName slot ≠ masterLinkName ∧ streamSlotName slot ≠ streamLinkName ∧
    masterLinkName ≠ streamLinkName := by
  cases slot <;> refine ⟨?_, ?_, ?_, ?_, ?_⟩ <;> decide

theorem copyFile_eq (fs : FS) (src dst : String) (i : FileInfo)
    (h : FS.lookup fs src = some i) : FS.copyFile fs src dst = FS.setFile fs dst i := by
  rw [FS.copyFile, h]

theorem publishCopy_lookup (fs : FS) (slot : Slot) (im istr : FileInfo)
    (hm : FS.lookup fs (masterSlotName slot) = some im)
    (hs : FS.lookup fs (streamSlotName slot) = some istr) :
    FS.lookup (publishCopy fs slot) masterLinkName = some im ∧
    FS.lookup (publishCopy fs slot) streamLinkName = some istr ∧
    ∀ n, n ≠ masterLinkName → n ≠ streamLinkName →
      FS.lookup (publishCopy fs slot) n = FS.lookup fs n := by
  obtain ⟨hn1, hn2, hn3, hn4, hn5⟩ := slotName_ne_links slot
  have he1 : FS.lookup (FS.erase (FS.erase fs masterLinkName) streamLinkName)
      (masterSlotName slot) = some im := by
    rw [lookup_erase, if_neg hn2, lookup_erase, if_neg hn1, hm]
  have he2 : FS.lookup (FS.erase (FS.erase fs masterLinkName) streamLinkName)
      (streamSlotName slot) = some istr := by
    rw [lookup_erase, if_neg hn4, lookup_erase, if_neg hn3, hs]
  have he3 : FS.lookup (FS.setFile (FS.erase (FS.erase fs masterLinkName) streamLinkName)
      masterLinkName im) (streamSlotName slot) = some istr := by
    rw [lookup_setFile_ne _ _ _ _ (fun hc => hn3 hc.symm), he2]
  simp only [publishCopy]
  rw [copyFile_eq _ _ _ _ he1, copyFile_eq _ _ _ _ he3]
  refine ⟨?_, ?_, ?_⟩
  · rw [lookup_setFile_ne _ _ _ _ (Ne.symm hn5), lookup_setFile_eq]
  · rw [lookup_setFile_eq]
  · intro n hna hnb
    rw [lookup_setFile_ne _ _ _ _ (fun hc => hnb hc.symm),
      lookup_setFile_ne _ _ _ _ (fun hc => hna hc.symm),
      lookup_erase, if_neg hnb, lookup_erase, if_neg hna]

theorem scheduleUpcoming_length (l : List QMovie) : ∀ s, (scheduleUpcoming s l).length = l.length := by
  induction l with
  | nil => intro s; rfl
  | cons m rest ih =>
    intro s
    rw [scheduleUpcoming]
    simp [ih]

theorem adjacentOk_scheduleUpcoming (l : List QMovie) :
    ∀ s, adjacentOk (scheduleUpcoming s l) = true := by
  induction l with
  | nil => intro s; rfl
  | cons m rest ih =>
    intro s
    cases rest with
    | nil => rfl
    | cons m2 rest2 =>
      rw [scheduleUpcoming, scheduleUpcoming, adjacentOk]
      rw [Bool.and_eq_true, decide_eq_true_eq]
      refine ⟨rfl, ?_⟩
      rw [← scheduleUpcoming]
      exact ih _

theorem adjacentOk_cons_schedule (r : ScheduleRow) (l : List QMovie) :
    adjacentOk (r :: scheduleUpcoming (r.endTime + 1000) l) = true := by
  cases l with
  | nil => rfl
  | cons m rest =>
    rw [scheduleUpcoming, adjacentOk]
    rw [Bool.and_eq_true, decide_eq_true_eq]
    refine ⟨rfl, ?_⟩
    rw [← scheduleUpcoming]
    exact adjacentOk_scheduleUpcoming (m :: rest) _

theorem mem_scheduleUpcoming (l : List QMovie) :
    ∀ s r, r ∈ scheduleUpcoming s l →
      r.current = false ∧ ∃ m ∈ l, r.title = m.title ∧
        r.endTime = r.startTime + getVideoDuration m.probe := by
  induction l with
  | nil =>
    intro s r h
    simp [scheduleUpcoming] at h
  | cons m rest ih =>
    intro s r h
    rw [scheduleUpcoming] at h
    rcases List.mem_cons.mp h with h1 | h2
    · refine ⟨by rw [h1], m, List.mem_cons_self m rest, by rw [h1], by rw [h1]⟩
    · obtain ⟨hc, m2, hm2, ht, he⟩ := ih _ r h2
      exact ⟨hc, m2, List.mem_cons_of_mem m hm2, ht, he⟩

theorem slotPairOk_apply (op : ChanOp) (p : Slot × Slot) (h : slotPairOk p) :
    slotPairOk (ChanOp.applySlots op p) := by
  cases op <;> rcases h with ⟨h1, h2⟩ | ⟨h1, h2⟩ <;>
    simp [ChanOp.applySlots, slotPairOk, h1, h2]

theorem slotPairOk_foldl (ops : List ChanOp) :
    ∀ p, slotPairOk p → slotPairOk (ops.foldl (fun q op => ChanOp.applySlots op q) p) := by
  induction ops with
  | nil => intro p h; exact h
  | cons op rest ih =>
    intro p h
    rw [List.foldl_cons]
    exact ih _ (slotPairOk_apply op p h)

theorem applyStep_disk (t : TStep) (st : EngineQueueState) (h : t ≠ TStep.queuePersist) :
    (TStep.applyStep t st).disk = st.disk := by
  cases t <;> first
    | rfl
    | exact absurd rfl h

theorem runSteps_disk_of_no_persist (l : List TStep) :
    ∀ st, TStep.queuePersist ∉ l → (runSteps l st).disk = st.disk := by
  induction l with
  | nil => intro st _; rfl
  | cons t rest ih =>
    intro st h
    rw [runSteps, List.foldl_cons]
    have h1 : TStep.queuePersist ∉ rest := fun hc => h (List.mem_cons_of_mem t hc)
    have h2 : t ≠ TStep.queuePersist := fun hc => h (hc ▸ List.mem_cons_self t rest)
    rw [← runSteps, ih _ h1, applyStep_disk t st h2]

theorem runQueueOps_sync (ops : List QueueOp) :
    ∀ c, ops ≠ [] → (runQueueOps c ops).mem = (runQueueOps c ops).disk := by
  induction ops with
  | nil => intro c h; exact absurd rfl h
  | cons op rest ih =>
    intro c _
    rw [runQueueOps, List.foldl_cons, ← runQueueOps]
    cases hr : rest with
    | nil =>
      cases op <;> simp [runQueueOps, applyQueueOp]
    | cons op2 rest2 =>
      rw [← hr]
      exact ih _ (by rw [hr]; exact List.cons_ne_nil _ _)

/-! ### Claim C1 — readiness detector -/

/-- Claim C1, counterexample. The claim states the detector reports a slot
playable exactly when (among other conditions) the stream playlist lists at
least two filenames matching ``segment_<slot>_\d+\.ts``. On the concrete
directory `c1fs` the playlist lists `segment_x.ts` and `segment_y.ts`: the
source's pattern `/segment_.*?\.ts/g` matches them and the detector reports
ready at its first poll, while the claim's conditions (no
``segment_A_\d+\.ts`` match at any observation — the trajectory is constant)
are never satisfied. -/
theorem c1_detector_counterexample :
    (detectorResult (fun _ => c1fs) Slot.A).isSome = true ∧
    claimedPlayable c1fs Slot.A = false := by
  constructor
  · decide
  · decide

/-- Claim C1 (amended): the per-observation check of the readiness detector
passes exactly when `master_<slot>.m3u8` and `stream_<slot>.m3u8` exist and
are non-empty, the stream playlist text matches `/segment_.*?\.ts/g` at least
twice, and each of the first two matched segment files exists on disk larger
than 5000 bytes (the claim's conditions with the source's pattern
`/segment_.*?\.ts/g` in place of ``segment_<slot>_\d+\.ts``); the detector
polls every 500 ms, reports ready at the first satisfying observation, and at
the 20-second deadline performs one final check, reporting ready only if that
check passes. -/
theorem c1_detector_spec (obs : Nat → FS) (slot : Slot) :
    (∀ fs2, checkSegmentsReady fs2 slot = true ↔ playableConditions fs2 slot)
  ∧ ((detectorResult obs slot).isSome = true ↔
      ∃ k, 1 ≤ k ∧ k ≤ detectorPolls + 1 ∧ checkSegmentsReady (obs k) slot = true)
  ∧ (∀ k, detectorResult obs slot = some k →
      1 ≤ k ∧ k ≤ detectorPolls + 1 ∧ checkSegmentsReady (obs k) slot = true ∧
      ∀ j, 1 ≤ j → j ≤ detectorPolls → j < k → checkSegmentsReady (obs j) slot = false)
  ∧ POLL_INTERVAL_MS * (detectorPolls + 1) = READY_TIMEOUT_MS := by
  refine ⟨fun fs2 => checkSegmentsReady_iff fs2 slot, ?_, ?_, by decide⟩
  · rw [detectorResult]
    cases hfr : firstReadyAux obs slot 1 detectorPolls with
    | some k =>
      obtain ⟨h1, h2, h3, _⟩ := firstReadyAux_mem obs slot detectorPolls 1 k hfr
      simp only [Option.isSome_some, true_iff]
      exact ⟨k, h1, by omega, h3⟩
    | none =>
      by_cases hch : checkSegmentsReady (obs (detectorPolls + 1)) slot = true
      · rw [if_pos hch]
        simp only [Option.isSome_some, true_iff]
        exact ⟨detectorPolls + 1, by omega, le_refl _, hch⟩
      · rw [if_neg hch]
        simp only [Option.isSome_none, Bool.false_eq_true, false_iff]
        intro hcon
        obtain ⟨k, hk1, hk2, hk3⟩ := hcon
        by_cases hk : k ≤ detectorPolls
        · have := firstReadyAux_none obs slot detectorPolls 1 hfr k hk1 (by omega)
          rw [this] at hk3
          cases hk3
        · have hk40 : k = detectorPolls + 1 := by omega
          exact hch (hk40 ▸ hk3)
  · intro k hk
    rw [detectorResult] at hk
    cases hfr : firstReadyAux obs slot 1 detectorPolls with
    | some j =>
      rw [hfr] at hk
      cases hk
      obtain ⟨h1, h2, h3, h4⟩ := firstReadyAux_mem obs slot detectorPolls 1 k hfr
      exact ⟨h1, by omega, h3, fun j hj1 _ hj3 => h4 j hj1 hj3⟩
    | none =>
      rw [hfr] at hk
      by_cases hch : checkSegmentsReady (obs (detectorPolls + 1)) slot = true
      · rw [if_pos hch] at hk
        cases hk
        refine ⟨by omega, le_refl _, hch, ?_⟩
        intro j hj1 hj2 _
        exact firstReadyAux_none obs slot detectorPolls 1 hfr j hj1 (by omega)
      · rw [if_neg hch] at hk
        cases hk

/-- Claim C1, witness: a directory with two on-disk slot-A segments is
reported ready, via `c1_detector_spec`. -/
theorem c1_detector_spec_witness :
    (detectorResult (fun _ => c1ReadyFs) Slot.A).isSome = true ∧
    playableConditions c1ReadyFs Slot.A := by
  have h := c1_detector_spec (fun _ => c1ReadyFs) Slot.A
  constructor
  · exact h.2.1.mpr ⟨1, by decide, by decide, by decide⟩
  · exact (h.1 c1ReadyFs).mp (by decide)

/-! ### Claim C2 — active-slot publisher -/

/-- Claim C2, counterexample. The claim requires success when at least two of
the first three referenced segment files are `≥ 5000` bytes; on the concrete
directory `c2fs` both referenced segments are exactly 5000 bytes, the claim's
conditions hold, yet the source (`size > 5000`, part_000 line 294) returns
"not ready". -/
theorem c2_publisher_counterexample :
    (switchActiveStream c2fs Slot.A).success = false ∧
    claimedSwitchReady c2fs Slot.A = true := by
  constructor
  · decide
  · decide

/-- Claim C2 (amended): `switchActiveStream` returns success if and only if
`master_S.m3u8` and `stream_S.m3u8` exist and are non-empty, the stream
playlist contains at least two ``segment_S_\d+\.ts`` references, and at least
two of the first three referenced segment files are strictly larger than
5000 bytes (the claim's `≥ 5000` corrected to the source's `> 5000`); when
verification fails it returns "not ready" and the directory — in particular
the public `master.m3u8` and `stream.m3u8` — is left unchanged; when it
succeeds the public names hold byte-for-byte copies of the slot's master and
stream playlists and no other file is touched. -/
theorem c2_switchActiveStream_spec (fs : FS) (s : Slot) :
    ((switchActiveStream fs s).success = true ↔ codeSwitchReady fs s)
  ∧ ((switchActiveStream fs s).success = false → (switchActiveStream fs s).fs = fs)
  ∧ ((switchActiveStream fs s).success = true →
      FS.lookup (switchActiveStream fs s).fs masterLinkName = FS.lookup fs (masterSlotName s) ∧
      FS.lookup (switchActiveStream fs s).fs streamLinkName = FS.lookup fs (streamSlotName s) ∧
      ∀ n, n ≠ masterLinkName → n ≠ streamLinkName →
        FS.lookup (switchActiveStream fs s).fs n = FS.lookup fs n) := by
  by_cases hA : FS.existsSync fs (masterSlotName s) = true ∧
      FS.existsSync fs (streamSlotName s) = true
  case neg =>
    have hsw : switchActiveStream fs s = ⟨false, fs⟩ := by
      simp only [switchActiveStream]
      rw [if_pos hA]
    rw [hsw]
    refine ⟨?_, fun _ => rfl, ?_⟩
    · simp only [Bool.false_eq_true, false_iff]
      intro hcon
      exact hA ⟨hcon.1, hcon.2.1⟩
    · intro hcon
      cases hcon
  case pos =>
    by_cases hB : FS.size fs (masterSlotName s) = 0 ∨ FS.size fs (streamSlotName s) = 0
    case pos =>
      have hsw : switchActiveStream fs s = ⟨false, fs⟩ := by
        simp only [switchActiveStream]
        rw [if_neg (not_not_intro hA), if_pos hB]
      rw [hsw]
      refine ⟨?_, fun _ => rfl, ?_⟩
      · simp only [Bool.false_eq_true, false_iff]
        intro hcon
        obtain ⟨_, _, hp3, hp4, _⟩ := hcon
        omega
      · intro hcon
        cases hcon
    case neg =>
      by_cases hC : containsTs (FS.content fs (streamSlotName s)).data = false
      case pos =>
        have hsw : switchActiveStream fs s = ⟨false, fs⟩ := by
          simp only [switchActiveStream]
          rw [if_neg (not_not_intro hA), if_neg hB, if_pos hC]
        rw [hsw]
        refine ⟨?_, fun _ => rfl, ?_⟩
        · simp only [Bool.false_eq_true, false_iff]
          intro hcon
          obtain ⟨_, _, _, _, hp5, _⟩ := hcon
          have := containsTs_of_matchSlotSegments s (FS.content fs (streamSlotName s)) hp5
          rw [this] at hC
          cases hC
        · intro hcon
          cases hcon
      case neg =>
        by_cases hD : (matchSlotSegments s (FS.content fs (streamSlotName s))).length < 2
        case pos =>
          have hsw : switchActiveStream fs s = ⟨false, fs⟩ := by
            simp only [switchActiveStream]
            rw [if_neg (not_not_intro hA), if_neg hB, if_neg hC, if_pos hD]
          rw [hsw]
          refine ⟨?_, fun _ => rfl, ?_⟩
          · simp only [Bool.false_eq_true, false_iff]
            intro hcon
            obtain ⟨_, _, _, _, hp5, _⟩ := hcon
            omega
          · intro hcon
            cases hcon
        case neg =>
          by_cases hE : ((matchSlotSegments s (FS.content fs (streamSlotName s))).take 3).countP
              (fun n => FS.existsSync fs n && decide (5000 < FS.size fs n)) < 2
          case pos =>
            have hsw : switchActiveStream fs s = ⟨false, fs⟩ := by
              simp only [switchActiveStream]
              rw [if_neg (not_not_intro hA), if_neg hB, if_neg hC, if_neg hD, if_pos hE]
            rw [hsw]
            refine ⟨?_, fun _ => rfl, ?_⟩
            · simp only [Bool.false_eq_true, false_iff]
              intro hcon
              obtain ⟨_, _, _, _, _, hp6⟩ := hcon
              omega
            · intro hcon
              cases hcon
          case neg =>
            have hsw : switchActiveStream fs s = ⟨true, publishCopy fs s⟩ := by
              simp only [switchActiveStream]
              rw [if_neg (not_not_intro hA), if_neg hB, if_neg hC, if_neg hD, if_neg hE]
            rw [hsw]
            obtain ⟨him, hm⟩ : ∃ i, FS.lookup fs (masterSlotName s) = some i := by
              have := hA.1
              rw [FS.existsSync, Option.isSome_iff_exists] at this
              obtain ⟨i, hi⟩ := this
              exact ⟨i, hi⟩
            obtain ⟨histr, hst⟩ : ∃ i, FS.lookup fs (streamSlotName s) = some i := by
              have := hA.2
              rw [FS.existsSync, Option.isSome_iff_exists] at this
              obtain ⟨i, hi⟩ := this
              exact ⟨i, hi⟩
            obtain ⟨hp1, hp2, hp3⟩ := publishCopy_lookup fs s him histr hm hst
            refine ⟨?_, ?_, ?_⟩
            · simp only [true_iff]
              exact ⟨hA.1, hA.2, by omega, by omega, by omega, by omega⟩
            · intro hcon
              cases hcon
            · intro _
              exact ⟨by rw [hp1, hm], by rw [hp2, hst], hp3⟩

/-- Claim C2, witness: on a publishable directory with 5001-byte segments and
a stale public playlist, `switchActiveStream` succeeds and the public master
becomes a copy of the slot's master, via `c2_switchActiveStream_spec`. -/
theorem c2_switchActiveStream_spec_witness :
    (switchActiveStream c2ReadyFs Slot.A).success = true ∧
    FS.lookup (switchActiveStream c2ReadyFs Slot.A).fs masterLinkName =
      FS.lookup c2ReadyFs (masterSlotName Slot.A) := by
  have h := c2_switchActiveStream_spec c2ReadyFs Slot.A
  have hs : (switchActiveStream c2ReadyFs Slot.A).success = true := by
    apply h.1.mpr
    unfold codeSwitchReady
    decide
  exact ⟨hs, (h.2.2 hs).1⟩

/-! ### Claim C4 — slot parity invariant -/

/-- Claim C4: in every channel runtime state reachable by any sequence of the
controller operations from initialization, the `(activeSlot, nextSlot)` pair
is `(A, B)` or `(B, A)` — so the two slots are distinct and together cover
`{A, B}`. -/
theorem c4_slot_parity_invariant (ops : List ChanOp) :
    slotPairOk (runChanOps ops) ∧ (runChanOps ops).1 ≠ (runChanOps ops).2 := by
  have h : slotPairOk (runChanOps ops) :=
    slotPairOk_foldl ops (Slot.A, Slot.B) (Or.inl ⟨rfl, rfl⟩)
  refine ⟨h, ?_⟩
  rcases h with ⟨h1, h2⟩ | ⟨h1, h2⟩ <;> rw [h1, h2] <;> intro hc <;> cases hc

/-! ### Claim C7 — `playingAd ⇒ isPlaying` -/

/-- Claim C7 is right and the code violates it: from the ad-loop state, the
ad transcoder's `onExit` handler with the queue still empty (part_000 lines
366-384) clears `isPlaying` but leaves `playingAd` set, so in the window
before the scheduled ad restart `playingAd = true` while `isPlaying = false`;
moreover the scheduled `playAd` then returns at its `isPlaying || playingAd`
guard (line 342), so the flag state persists. -/
theorem c7_playingAd_invariant_bug :
    (adOnExit 0 adLoopFlags).playingAd = true ∧
    (adOnExit 0 adLoopFlags).isPlaying = false ∧
    playAdStep 0 (adOnExit 0 adLoopFlags) [] = AdAction.skipAlreadyPlaying := by
  refine ⟨by decide, by decide, by decide⟩

/-! ### Claim C8 — queue persistence -/

/-- Claim C8: after any non-empty sequence of queue mutations — enqueue
appends and head-of-queue shifts, each paired in the source with an immediate
rewrite of `channels.json` — the queue read back from disk equals the
in-memory queue. -/
theorem c8_queue_persistence (c : Catalog) (ops : List QueueOp) (h : ops ≠ []) :
    (runQueueOps c ops).mem = (runQueueOps c ops).disk :=
  runQueueOps_sync ops c h

/-- Claim C8, witness: an enqueue followed by a shift leaves disk and memory
in agreement, via `c8_queue_persistence`. -/
theorem c8_queue_persistence_witness :
    (runQueueOps ⟨[], []⟩ [QueueOp.enqueue ⟨some "M1", some "movies/m1.mp4"⟩,
      QueueOp.shiftPersist]).mem =
    (runQueueOps ⟨[], []⟩ [QueueOp.enqueue ⟨some "M1", some "movies/m1.mp4"⟩,
      QueueOp.shiftPersist]).disk :=
  c8_queue_persistence ⟨[], []⟩ _ (by decide)

/-! ### Claim C10 — `getVideoDuration` totality and values -/

/-- Claim C10, counterexample. The claim states that when probing succeeds the
promise resolves with the probed duration multiplied by 1000; but a probe
that succeeds with `metadata.format.duration = 0` (falsy in JavaScript, line
62 of part_000) resolves with the 90-minute fallback instead of `0 * 1000`. -/
theorem c10_duration_counterexample :
    getVideoDuration (ProbeOutcome.ok (some 0)) = FALLBACK_DURATION_MS ∧
    FALLBACK_DURATION_MS ≠ 0 * 1000 := by
  constructor
  · decide
  · decide

/-- Claim C10 (amended): `getVideoDuration` is total and never rejects — on
every probe outcome the promise resolves — with exactly `FALLBACK_DURATION_MS`
(5,400,000 ms) when `ffprobe` errors or the 10-second timer fires, with the
probed duration multiplied by 1000 when probing succeeds with a nonzero
duration, and with the fallback as well when probing succeeds but reports a
missing or zero duration (the `|| 90*60` default); hence the `/play`
handler's catch branch is unreachable via a rejection of `getVideoDuration`. -/
theorem c10_getVideoDuration_spec (o : ProbeOutcome) :
    (getVideoDurationPromise o = PromiseOutcome.resolved (getVideoDuration o))
  ∧ (o = ProbeOutcome.error ∨ o = ProbeOutcome.timeout →
      getVideoDuration o = FALLBACK_DURATION_MS)
  ∧ (∀ d, o = ProbeOutcome.ok (some d) → d ≠ 0 → getVideoDuration o = d * 1000)
  ∧ (o = ProbeOutcome.ok none ∨ o = ProbeOutcome.ok (some 0) →
      getVideoDuration o = FALLBACK_DURATION_MS) := by
  refine ⟨rfl, ?_, ?_, ?_⟩
  · intro h
    rcases h with h | h <;> rw [h] <;> rfl
  · intro d h hd
    rw [h, getVideoDuration, if_neg hd]
  · intro h
    rcases h with h | h <;> rw [h] <;> rfl

/-- Claim C10, witness: a successful 30-second probe resolves with 30,000 ms,
via `c10_getVideoDuration_spec`. -/
theorem c10_getVideoDuration_spec_witness :
    getVideoDuration (ProbeOutcome.ok (some 30)) = 30 * 1000 :=
  (c10_getVideoDuration_spec (ProbeOutcome.ok (some 30))).2.2.1 30 rfl (by decide)

/-! ### Claim C3 — queue shift last in the transition -/

/-- Claim C3, counterexample. The claim covers every successful PlayNext
transition and cites both implementations; in server.js's `playNextMovie`
(lines 384-448) the head is shifted off the in-memory queue at line 395,
before the slot swap, the publication attempts, the metadata update and the
schedule regeneration — so the claimed ordering fails on that effect list. -/
theorem c3_shift_order_counterexample : ¬ claimedShiftLast serverJsPlayNextSteps := by
  unfold claimedShiftLast
  decide

/-- Claim C3 (amended): in part_000's `playNextMovie` the queue shift and the
persistence write that follows it do come after the slot swap, the
publication attempts, the metadata update and the schedule regeneration; in
server.js's `playNextMovie` the in-memory shift precedes the swap, but in
both versions the `channels.json` write is the last effect of the transition,
so if the process dies at any point before the transition completes (any
proper prefix of either effect list) the persisted queue — and in particular
the movie at its head — is unchanged on restart. -/
theorem c3_playNext_order_spec :
    claimedShiftLast part000PlayNextSteps
  ∧ idxOfStep TStep.queuePersist part000PlayNextSteps = part000PlayNextSteps.length - 1
  ∧ idxOfStep TStep.queuePersist serverJsPlayNextSteps = serverJsPlayNextSteps.length - 1
  ∧ (∀ (n : Nat) (st : EngineQueueState), n < part000PlayNextSteps.length →
      (runSteps (part000PlayNextSteps.take n) st).disk = st.disk)
  ∧ (∀ (n : Nat) (st : EngineQueueState), n < serverJsPlayNextSteps.length →
      (runSteps (serverJsPlayNextSteps.take n) st).disk = st.disk) := by
  refine ⟨by unfold claimedShiftLast; decide, by decide, by decide, ?_, ?_⟩
  · intro n st hn
    apply runSteps_disk_of_no_persist
    have hlen : part000PlayNextSteps.length = 9 := by decide
    rw [hlen] at hn
    interval_cases n <;> decide
  · intro n st hn
    apply runSteps_disk_of_no_persist
    have hlen : serverJsPlayNextSteps.length = 9 := by decide
    rw [hlen] at hn
    interval_cases n <;> decide

/-- Claim C3, witness: a crash just before the final persistence write of
part_000's transition leaves the persisted queue intact, via
`c3_playNext_order_spec`. -/
theorem c3_playNext_order_spec_witness :
    (runSteps (part000PlayNextSteps.take 8) ⟨["M1"], ["M1"], (Slot.A, Slot.B)⟩).disk = ["M1"] :=
  c3_playNext_order_spec.2.2.2.1 8 ⟨["M1"], ["M1"], (Slot.A, Slot.B)⟩ (by decide)

/-! ### Claim C5 — preload guards and deadline -/

/-- Claim C5, counterexample. The claim states that when neither
`isPreloading` nor `preloadReady` holds, PreloadNext spawns the head movie's
transcoder; but with both flags false and a head movie whose file is not on
disk, `preloadNextMovie` returns failure without spawning (part_000 lines
434-437). -/
theorem c5_preload_counterexample :
    preloadDecision [c5missingMovie] false false ([] : FS) =
      PreloadDecision.refuseMissingFile ∧
    (preloadDecision [c5missingMovie] false false ([] : FS)).isSpawn = false := by
  constructor
  · decide
  · decide

/-- Claim C5 (amended): `preloadNextMovie` returns without spawning whenever
`isPreloading` or `preloadReady` is set (returning success in the latter
case, so concurrent calls collapse to a single preload); otherwise — provided
the queue is non-empty, its head has a file path, and the file exists on
disk — it spawns that head movie's transcoder on `nextSlot` without
input-loop; a 25-second deadline applies, and at the deadline with readiness
still unobserved the manual filesystem check runs: both slot playlists exist,
the playlist matches `/segment_.*?\.ts/g` at least twice, and the first two
matches are each on disk strictly larger than 5000 bytes; failure is returned
if it does not pass. -/
theorem c5_preload_spec (q : List Movie) (ip pr : Bool) (fs : FS) :
    (ip = true → (preloadDecision q ip pr fs).isSpawn = false)
  ∧ (pr = true → (preloadDecision q ip pr fs).isSpawn = false)
  ∧ (∀ m rest, q = m :: rest → ip = false → pr = true →
      preloadDecision q ip pr fs = PreloadDecision.alreadyReady ∧
      preloadReturns (preloadDecision q ip pr fs) false = true)
  ∧ (∀ m rest p, q = m :: rest → ip = false → pr = false → m.filePath = some p →
      FS.existsSync fs p = true → preloadDecision q ip pr fs = PreloadDecision.spawn p)
  ∧ preloadSpawnIsAd = false
  ∧ (∀ a n, preloadSpawnSlot a n = n)
  ∧ (∀ slot, preloadDeadlineResult false fs slot = manualPreloadCheck fs slot ∧
      preloadDeadlineResult true fs slot = true ∧
      (manualPreloadCheck fs slot = true ↔ manualCheckConditions fs slot)) := by
  refine ⟨?_, ?_, ?_, ?_, rfl, fun a n => rfl, ?_⟩
  · intro h
    cases q with
    | nil => rfl
    | cons m rest => simp [preloadDecision, h, PreloadDecision.isSpawn]
  · intro h
    cases q with
    | nil => rfl
    | cons m rest =>
      cases hip : ip <;> simp [preloadDecision, h, hip, PreloadDecision.isSpawn]
  · intro m rest hq hip hpr
    subst hq
    subst hip
    subst hpr
    exact ⟨by simp [preloadDecision], by simp [preloadDecision, preloadReturns]⟩
  · intro m rest p hq hip hpr hpath hex
    subst hq
    subst hip
    subst hpr
    simp [preloadDecision, hpath, hex]
  · intro slot
    exact ⟨rfl, rfl, manualPreloadCheck_iff fs slot⟩

/-- Claim C5, witness: with both guards clear and the head movie's file on
disk, the preload spawns on that file, via `c5_preload_spec`. -/
theorem c5_preload_spec_witness :
    preloadDecision [⟨some "Ready", some "movies/ready.mp4"⟩] false false c5onDiskFs =
      PreloadDecision.spawn "movies/ready.mp4" :=
  (c5_preload_spec [⟨some "Ready", some "movies/ready.mp4"⟩] false false c5onDiskFs).2.2.2.1
    ⟨some "Ready", some "movies/ready.mp4"⟩ [] "movies/ready.mp4" rfl rfl rfl rfl (by decide)

/-! ### Claim C6 — missing input handling -/

/-- Claim C6, counterexample. The claim states that when a movie's input file
is absent the system drops that movie from the head of the queue, persists
the queue, and tries the next item; but with a syntactically valid head whose
file is absent, `playNextMovie` leaves the queue untouched, persists nothing,
and merely retries in 5 seconds (part_000 lines 434-437 and 576-582) —
forever, since the state never changes. -/
theorem c6_input_missing_counterexample :
    playNextStep [c6missingMovie] idleFlags false ([] : FS) true =
      ([c6missingMovie], false, PlayNextAction.retryIn5s) := by
  decide

/-- Claim C6 (amended): a missing or unreadable input file aborts the spawn
and is treated as `onExit(-1)`; a missing ad file causes the spawn to retry
after 5 seconds (both before the spawn and via the `onExit(-1)` back-off); a
movie whose file is missing is NOT dropped — the preload returns failure, the
queue and `channels.json` are untouched, and `playNextMovie` retries in
5 seconds; only a queue head lacking `title` or `filePath` is shifted off,
persisted, and followed by a retry of the next item. -/
theorem c6_input_missing_spec (fs : FS) (input : String) (m : Movie) (rest : List Movie)
    (st : RuntimeFlags) (b : Bool) :
    (FS.existsSync fs input = false ∨ FS.readableSync fs input = false →
      startFFmpegSpawn fs input = SpawnOutcome.abortedExitNeg1)
  ∧ (FS.existsSync fs adVideoPath = false → st.isPlaying = false → st.playingAd = false →
      playAdStep 0 st fs = AdAction.retryIn 5000)
  ∧ adOnExitRetryMs (-1) = 5000
  ∧ (∀ p, m.title.isSome = true → m.filePath = some p → FS.existsSync fs p = false →
      st.preloadReady = false → st.isPreloading = false →
      playNextStep (m :: rest) st false fs b = (m :: rest, false, PlayNextAction.retryIn5s))
  ∧ (m.title.isNone ∨ m.filePath.isNone →
      playNextStep (m :: rest) st false fs b = (rest, true, PlayNextAction.dropInvalidRetry1s)) := by
  refine ⟨?_, ?_, by decide, ?_, ?_⟩
  · intro h
    rcases h with h | h <;> simp [startFFmpegSpawn, h]
  · intro h h1 h2
    simp [playAdStep, h, h1, h2]
  · intro p ht hpath hex h1 h2
    obtain ⟨mt, mf⟩ := m
    cases mt with
    | none => simp at ht
    | some t =>
      cases hpath
      simp [playNextStep, preloadDecision, preloadReturns, h1, h2, hex]
  · intro h
    simp only [playNextStep]
    rw [if_pos h]

/-- Claim C6, witness: a spawn on an absent file aborts with exit −1, and
`playNextMovie` with an absent head movie file retries with the queue
untouched and nothing persisted, via `c6_input_missing_spec`. -/
theorem c6_input_missing_spec_witness :
    startFFmpegSpawn ([] : FS) "movies/absent.mp4" = SpawnOutcome.abortedExitNeg1 ∧
    playNextStep [⟨some "W", some "movies/absent.mp4"⟩] idleFlags false ([] : FS) true =
      ([⟨some "W", some "movies/absent.mp4"⟩], false, PlayNextAction.retryIn5s) := by
  have h := c6_input_missing_spec ([] : FS) "movies/absent.mp4"
    ⟨some "W", some "movies/absent.mp4"⟩ [] idleFlags true
  exact ⟨h.1 (Or.inl (by decide)),
    h.2.2.2.1 "movies/absent.mp4" (by decide) rfl (by decide) rfl rfl⟩

/-! ### Claim C9 — schedule shape and chaining -/

/-- Claim C9: every generated schedule has at most 11 rows — the current
entry, marked current and placed first, when a snapshot is given, plus up to
10 upcoming queue entries; adjacent entries chain with exactly 1 second
between one entry's end and the next entry's start; each upcoming entry's end
time is its start time plus its probed duration; the current entry's times
come from the snapshot, which every call site builds as start plus the
current movie's probed duration (hypothesis `hcur`); and the probe falls back
to 90 minutes on error or on the 10-second timeout. -/
theorem c9_schedule_spec (now : Nat) (cur : Option CurrentInfo) (curProbe : ProbeOutcome)
    (q : List QMovie)
    (hcur : ∀ info, cur = some info →
      info.endTime = info.startTime + getVideoDuration curProbe) :
    (generateDynamicSchedule now cur q).length ≤ 11
  ∧ (∀ info, cur = some info →
      (generateDynamicSchedule now cur q).head? =
        some ⟨info.title, info.startTime, info.endTime, true⟩)
  ∧ adjacentOk (generateDynamicSchedule now cur q) = true
  ∧ (∀ r ∈ generateDynamicSchedule now cur q, r.current = false →
      ∃ m ∈ q.take 10, r.title = m.title ∧ r.endTime = r.startTime + getVideoDuration m.probe)
  ∧ (∀ info, cur = some info → ∀ r, (generateDynamicSchedule now cur q).head? = some r →
      r.current = true ∧ r.endTime = r.startTime + getVideoDuration curProbe)
  ∧ (cur = none → ∀ r ∈ generateDynamicSchedule now cur q, r.current = false)
  ∧ getVideoDuration ProbeOutcome.error = FALLBACK_DURATION_MS
  ∧ getVideoDuration ProbeOutcome.timeout = FALLBACK_DURATION_MS := by
  cases cur with
  | none =>
    simp only [generateDynamicSchedule]
    refine ⟨?_, ?_, ?_, ?_, ?_, ?_, rfl, rfl⟩
    · rw [scheduleUpcoming_length, List.length_take]
      omega
    · intro info h
      cases h
    · exact adjacentOk_scheduleUpcoming _ _
    · intro r hr _
      obtain ⟨_, m, hm, ht, he⟩ := mem_scheduleUpcoming _ _ r hr
      exact ⟨m, hm, ht, he⟩
    · intro info h
      cases h
    · intro _ r hr
      exact (mem_scheduleUpcoming _ _ r hr).1
  | some info =>
    simp only [generateDynamicSchedule]
    refine ⟨?_, ?_, ?_, ?_, ?_, ?_, rfl, rfl⟩
    · rw [List.length_cons, scheduleUpcoming_length, List.length_take]
      omega
    · intro info2 h
      cases h
      rfl
    · exact adjacentOk_cons_schedule ⟨info.title, info.startTime, info.endTime, true⟩ (q.take 10)
    · intro r hr hc
      rcases List.mem_cons.mp hr with h1 | h2
      · rw [h1] at hc
        cases hc
      · obtain ⟨_, m, hm, ht, he⟩ := mem_scheduleUpcoming _ _ r h2
        exact ⟨m, hm, ht, he⟩
    · intro info2 h r hh
      cases h
      cases hh
      exact ⟨rfl, hcur info rfl⟩
    · intro h
      cases h
/-- Claim C9, witness: a schedule built from a current snapshot (whose end
time is its start plus the 90-minute fallback of a failed probe) and one
upcoming movie chains correctly and stays within 11 rows, via
`c9_schedule_spec`. -/
theorem c9_schedule_spec_witness :
    adjacentOk (generateDynamicSchedule 0 (some ⟨"Current", 1000, 5401000⟩)
      [⟨"Next", ProbeOutcome.timeout⟩]) = true ∧
    (generateDynamicSchedule 0 (some ⟨"Current", 1000, 5401000⟩)
      [⟨"Next", ProbeOutcome.timeout⟩]).length ≤ 11 := by
  have h := c9_schedule_spec 0 (some ⟨"Current", 1000, 5401000⟩) ProbeOutcome.error
    [⟨"Next", ProbeOutcome.timeout⟩] (fun info2 hinfo => by cases hinfo; decide)
  exact ⟨h.2.2.1, h.1⟩

end AxStream
